import Mathlib

/-!
Shallow embedding of the ccb-admin library-management core.

The backing Google Sheet of each entity kind is modelled as an optional list
of rows (`Option Sheet`); `none` means the master spreadsheet cannot be
opened (discovery not run / open failure), mirroring
`openMasterSpreadsheet` returning `null`.  A row is a list of string cells;
row 0 is the header row.  All scans in the source start at index 1, which the
embedding mirrors by dropping the head of the list.

Dates are modelled as explicit year/month/day triples; `new Date()` in the
source is passed in as an explicit `today` parameter, `Utilities.formatDate
(d, tz, 'yyyy-MM-dd')` becomes `formatDate`, and JavaScript
`setDate(getDate() + n)` calendar normalization becomes `addDays` (fuel-based
so it evaluates in the kernel).  The script time zone is abstracted away:
date-only values are compared as calendar days, as the spec's
"start-of-day" wording describes.  `Utilities.getUuid()` becomes an explicit
`newId` parameter.
-/

namespace CCB

/-- Result type mirroring `OperationResult<T> = { success, data?, error? }`.
`ok` is `success: true` with data, `err` is `success: false` with an error
message. -/
inductive OperationResult (α : Type) where
  | ok (data : α)
  | err (error : String)
deriving Repr, DecidableEq

def OperationResult.isOk {α : Type} : OperationResult α → Bool
  | .ok _ => true
  | .err _ => false

abbrev Row := List String

abbrev Sheet := List Row

/-- `row[0]` of a sheet row (`undefined` on an empty row, modelled as
`none`; the source compares `data[i][0] === id` with a string `id`, which is
false for `undefined`). -/
def headCell (r : Row) : Option String := r.head?

/-- Calendar date (year, month 1-12, day 1-31). -/
structure Date where
  year : Nat
  month : Nat
  day : Nat
deriving Repr, DecidableEq

/-- Gregorian leap-year rule (as used by the JavaScript Date object). -/
def isLeapYear (y : Nat) : Bool :=
  y % 4 = 0 && (y % 100 ≠ 0 || y % 400 = 0)

def daysInMonth (y m : Nat) : Nat :=
  if m = 2 then (if isLeapYear y then 29 else 28)
  else if m = 4 ∨ m = 6 ∨ m = 9 ∨ m = 11 then 30
  else 31

/-- Normalizes a 0-based day offset from the first of month `m` of year `y`
into a calendar date, rolling over month ends the way JavaScript
`setDate` does.  The fuel argument only drives structural recursion; it is
always chosen large enough (months consumed never exceed the day offset). -/
def rollDays : Nat → Nat → Nat → Nat → Date
  | 0, y, m, off => ⟨y, m, off + 1⟩
  | fuel + 1, y, m, off =>
    if off < daysInMonth y m then ⟨y, m, off + 1⟩
    else if m = 12 then rollDays fuel (y + 1) 1 (off - daysInMonth y m)
    else rollDays fuel y (m + 1) (off - daysInMonth y m)

/-- JavaScript `d.setDate(d.getDate() + n)` for `n ≥ 0`: calendar-day
addition with month/year rollover. -/
def addDays (n : Nat) (d : Date) : Date :=
  rollDays (d.day + n + 1) d.year d.month (d.day - 1 + n)

def padZero (len : Nat) (n : Nat) : String :=
  let s := toString n
  String.mk (List.replicate (len - s.length) '0') ++ s

/-- `Utilities.formatDate(d, tz, 'yyyy-MM-dd')`. -/
def formatDate (d : Date) : String :=
  padZero 4 d.year ++ "-" ++ padZero 2 d.month ++ "-" ++ padZero 2 d.day

def digitsVal (cs : List Char) : Nat :=
  cs.foldl (fun n c => n * 10 + (c.toNat - '0'.toNat)) 0

def allDigits (cs : List Char) : Bool :=
  cs.all Char.isDigit

/-- `new Date(str)` on a `yyyy-MM-dd` string: `some` of the parsed calendar
date when the string is a well-formed ISO date, `none` for an Invalid Date.
(Other JavaScript date formats are outside the embedding; every date the
system itself stores goes through `formatDate`.) -/
def parseIsoDate (s : String) : Option Date :=
  match s.toList.splitOn '-' with
  | [a, b, c] =>
    if a.length = 4 && b.length = 2 && c.length = 2
        && allDigits a && allDigits b && allDigits c then
      let y := digitsVal a
      let m := digitsVal b
      let d := digitsVal c
      if 1 ≤ m && m ≤ 12 && 1 ≤ d && d ≤ daysInMonth y m then
        some ⟨y, m, d⟩
      else none
    else none
  | _ => none

/-- Timestamp order on date-only values (`dueDate < today` with both at
start of day). -/
def dateLt (a b : Date) : Bool :=
  a.year < b.year
    || (a.year = b.year && (a.month < b.month
    || (a.month = b.month && a.day < b.day)))

/-- `Borrower` entity (src/types/entities.ts).  Status and dates are kept as
raw strings because `rowToEntity` performs no enum or format validation. -/
structure Borrower where
  id : String
  name : String
  email : String
  phone : String
  status : String
  joinDate : String
  notes : String
deriving Repr, DecidableEq

/-- `Media` entity (src/types/entities.ts). -/
structure Media where
  id : String
  title : String
  author : String
  type' : String
  isbn : String
  status : String
  notes : String
deriving Repr, DecidableEq

/-- `Loan` entity (src/types/entities.ts). -/
structure Loan where
  id : String
  borrowerId : String
  mediaId : String
  checkoutDate : String
  dueDate : String
  returnDate : String
  status : String
deriving Repr, DecidableEq

/-- The data `BaseEntityService<T>` is parameterized over: the sheet name
(used in error messages), the column list (as its length plus the
field order captured by `toFields`/`ofFields`), and the id field update
used by `{ ...entity, id }` spreads. -/
structure EntitySchema (T : Type) where
  sheetName : String
  cols : Nat
  toFields : T → List String
  ofFields : List String → Option T
  setId : String → T → T

/-- `BORROWER_COLUMNS = [id, name, email, phone, status, joinDate, notes]`. -/
def borrowerSchema : EntitySchema Borrower where
  sheetName := "Borrowers"
  cols := 7
  toFields := fun b => [b.id, b.name, b.email, b.phone, b.status, b.joinDate, b.notes]
  ofFields := fun l =>
    match l with
    | [i, n, e, p, s, j, no] => some ⟨i, n, e, p, s, j, no⟩
    | _ => none
  setId := fun i b => { b with id := i }

/-- `MEDIA_COLUMNS = [id, title, author, type, isbn, status, notes]`. -/
def mediaSchema : EntitySchema Media where
  sheetName := "Media"
  cols := 7
  toFields := fun m => [m.id, m.title, m.author, m.type', m.isbn, m.status, m.notes]
  ofFields := fun l =>
    match l with
    | [i, t, a, ty, isb, s, no] => some ⟨i, t, a, ty, isb, s, no⟩
    | _ => none
  setId := fun i m => { m with id := i }

/-- `LOAN_COLUMNS = [id, borrowerId, mediaId, checkoutDate, dueDate,
returnDate, status]`. -/
def loanSchema : EntitySchema Loan where
  sheetName := "Loans"
  cols := 7
  toFields := fun l => [l.id, l.borrowerId, l.mediaId, l.checkoutDate, l.dueDate, l.returnDate, l.status]
  ofFields := fun l =>
    match l with
    | [i, b, m, c, d, r, s] => some ⟨i, b, m, c, d, r, s⟩
    | _ => none
  setId := fun i l => { l with id := i }

/-- `BaseEntityService.rowToEntity`: rows with fewer cells than the column
list yield `null`; otherwise cells are assigned positionally. -/
def rowToEntity {T : Type} (sch : EntitySchema T) (row : Row) : Option T :=
  if row.length < sch.cols then none else sch.ofFields (row.take sch.cols)

/-- `BaseEntityService.entityToRow` for a fully-typed entity: every field is
present, so `entity[col] ?? ''` is just the field list. -/
def entityToRow {T : Type} (sch : EntitySchema T) (e : T) : Row :=
  sch.toFields e

/-- Untyped view of `rowToEntity` over a record as a list of optional field
values (`undefined` modelled as `none`), for the generic row-mapping
round-trip property. -/
def rowToEntityRaw (cols : Nat) (row : Row) : Option (List (Option String)) :=
  if row.length < cols then none else some ((row.take cols).map some)

/-- Untyped view of `entityToRow`: `columns.map(col => entity[col] ?? '')`. -/
def entityToRowRaw (e : List (Option String)) : Row :=
  e.map (fun v => v.getD "")

def accessError {T : Type} (sch : EntitySchema T) : String :=
  "Could not access " ++ sch.sheetName ++ " master spreadsheet. Run Setup first."

def notFoundError {T : Type} (sch : EntitySchema T) (id : String) : String :=
  sch.sheetName ++ " with ID " ++ id ++ " not found"

/-- Data-row part of `getAll` (rows after the header): malformed rows are
silently dropped. -/
def getAllRows {T : Type} (sch : EntitySchema T) (rows : List Row) : List T :=
  rows.filterMap (rowToEntity sch)

/-- `BaseEntityService.getAll`. -/
def getAll {T : Type} (sch : EntitySchema T) (sheet : Option Sheet) :
    OperationResult (List T) :=
  match sheet with
  | none => .err (accessError sch)
  | some ls => .ok (getAllRows sch (ls.drop 1))

/-- Scan part of `getById` (over the data rows): first row whose column 0
matches and which parses wins; matching rows that fail to parse are
skipped and the scan continues. -/
def getByIdRows {T : Type} (sch : EntitySchema T) (id : String) :
    List Row → Option T
  | [] => none
  | row :: rest =>
    if headCell row = some id then
      match rowToEntity sch row with
      | some e => some e
      | none => getByIdRows sch id rest
    else getByIdRows sch id rest

/-- `BaseEntityService.getById`. -/
def getById {T : Type} (sch : EntitySchema T) (id : String)
    (sheet : Option Sheet) : OperationResult T :=
  match sheet with
  | none => .err (accessError sch)
  | some ls =>
    match getByIdRows sch id (ls.drop 1) with
    | some e => .ok e
    | none => .err (notFoundError sch id)

/-- `BaseEntityService.create`: generate id, build `{ id: newId, ...entity }`,
append one row.  Returns the created entity and the new sheet. -/
def create {T : Type} (sch : EntitySchema T) (newId : String) (entity : T)
    (sheet : Option Sheet) : OperationResult T × Option Sheet :=
  match sheet with
  | none => (.err (accessError sch), none)
  | some ls =>
    let fullEntity := sch.setId newId entity
    (.ok fullEntity, some (ls ++ [entityToRow sch fullEntity]))

/-- Scan part of `update`: at the first row whose column 0 matches, parse it
(`'Failed to parse existing entity'` on a malformed row), merge the partial
update (`{ ...existing, ...updates, id }`), write the merged row back in
place (only the first `cols` cells are overwritten, mirroring the
`getRange(i+1, 1, 1, row.length)` write).  `none` when no row matches. -/
def updateRows {T : Type} (sch : EntitySchema T) (id : String) (patch : T → T) :
    List Row → Option (OperationResult T × List Row)
  | [] => none
  | row :: rest =>
    if headCell row = some id then
      match rowToEntity sch row with
      | none => some (.err "Failed to parse existing entity", row :: rest)
      | some e =>
        let updated := sch.setId id (patch e)
        some (.ok updated, (entityToRow sch updated ++ row.drop sch.cols) :: rest)
    else
      match updateRows sch id patch rest with
      | none => none
      | some (r, rest') => some (r, row :: rest')

/-- `update` on an already-opened sheet (header row preserved). -/
def updateSheet {T : Type} (sch : EntitySchema T) (id : String) (patch : T → T)
    (ls : Sheet) : OperationResult T × Sheet :=
  match updateRows sch id patch (ls.drop 1) with
  | none => (.err (notFoundError sch id), ls)
  | some (r, rest') => (r, ls.take 1 ++ rest')

/-- `BaseEntityService.update`. -/
def update {T : Type} (sch : EntitySchema T) (id : String) (patch : T → T)
    (sheet : Option Sheet) : OperationResult T × Option Sheet :=
  match sheet with
  | none => (.err (accessError sch), none)
  | some ls =>
    ((updateSheet sch id patch ls).1, some (updateSheet sch id patch ls).2)

/-- Scan part of `delete`: remove the first row whose column 0 matches. -/
def deleteRows (id : String) : List Row → Option (List Row)
  | [] => none
  | row :: rest =>
    if headCell row = some id then some rest
    else
      match deleteRows id rest with
      | none => none
      | some rest' => some (row :: rest')

/-- `BaseEntityService.delete`. -/
def delete {T : Type} (sch : EntitySchema T) (id : String)
    (sheet : Option Sheet) : OperationResult Unit × Option Sheet :=
  match sheet with
  | none => (.err (accessError sch), none)
  | some ls =>
    match deleteRows id (ls.drop 1) with
    | none => (.err (notFoundError sch id), some ls)
    | some rest' => (.ok (), some (ls.take 1 ++ rest'))

/-- `BorrowerService.isInGoodStanding`: `status === 'active'` projection. -/
def isInGoodStanding (id : String) (borrowers : Option Sheet) :
    OperationResult Bool :=
  match getById borrowerSchema id borrowers with
  | .err e => .err e
  | .ok b => .ok (b.status == "active")

/-- `MediaService.isAvailable`: `status === 'available'` projection. -/
def isAvailable (id : String) (media : Option Sheet) : OperationResult Bool :=
  match getById mediaSchema id media with
  | .err e => .err e
  | .ok m => .ok (m.status == "available")

/-- `MediaService.markAsOnLoan` (`updateStatus(id, 'on-loan')`). -/
def markAsOnLoan (id : String) (media : Option Sheet) :
    OperationResult Media × Option Sheet :=
  update mediaSchema id (fun m => { m with status := "on-loan" }) media

/-- `MediaService.markAsAvailable` (`updateStatus(id, 'available')`). -/
def markAsAvailable (id : String) (media : Option Sheet) :
    OperationResult Media × Option Sheet :=
  update mediaSchema id (fun m => { m with status := "available" }) media

/-- `BorrowerService.createBorrower`: defaults `status: 'active'`,
`joinDate: today`; no validation is performed on any field. -/
def createBorrower (today : Date) (newId : String)
    (name email phone notes : String) (borrowers : Option Sheet) :
    OperationResult Borrower × Option Sheet :=
  create borrowerSchema newId
    ⟨"", name, email, phone, "active", formatDate today, notes⟩ borrowers

/-- The three backing sheets; `none` = master spreadsheet unreachable. -/
structure LibState where
  borrowers : Option Sheet
  media : Option Sheet
  loans : Option Sheet
deriving Repr, DecidableEq

/-- `LoanService.checkout(borrowerId, mediaId, loanDays)`.  `today` stands
for `new Date()` and `newId` for the generated UUID of the created loan. -/
def checkout (today : Date) (newId : String) (borrowerId mediaId : String)
    (loanDays : Nat) (s : LibState) : OperationResult Loan × LibState :=
  match isInGoodStanding borrowerId s.borrowers with
  | .err e => (.err e, s)
  | .ok good =>
    if !good then (.err "Borrower is not in good standing", s)
    else
      match isAvailable mediaId s.media with
      | .err e => (.err e, s)
      | .ok avail =>
        if !avail then (.err "Media item is not available for checkout", s)
        else
          let checkoutDate := formatDate today
          let dueDateStr := formatDate (addDays loanDays today)
          match create loanSchema newId
              ⟨"", borrowerId, mediaId, checkoutDate, dueDateStr, "", "active"⟩
              s.loans with
          | (.err e, loans') => (.err e, { s with loans := loans' })
          | (.ok loan, loans') =>
            match markAsOnLoan mediaId s.media with
            | (.err e, media') =>
              -- Rollback loan creation
              (.err ("Failed to update media status: " ++ e),
                { s with loans := (delete loanSchema loan.id loans').2,
                         media := media' })
            | (.ok _, media') =>
              (.ok loan, { s with loans := loans', media := media' })

/-- `LoanService.processReturn(loanId)`.  A failed media-side update is only
logged (`Logger.log` warning); the loan update's result is returned
regardless. -/
def processReturn (today : Date) (loanId : String) (s : LibState) :
    OperationResult Loan × LibState :=
  match getById loanSchema loanId s.loans with
  | .err e => (.err e, s)
  | .ok loan =>
    if loan.status = "returned" then
      (.err "This loan has already been returned", s)
    else
      match update loanSchema loanId
          (fun l => { l with returnDate := formatDate today, status := "returned" })
          s.loans with
      | (.err e, loans') => (.err e, { s with loans := loans' })
      | (.ok updated, loans') =>
        (.ok updated, { s with loans := loans',
                               media := (markAsAvailable loan.mediaId s.media).2 })

/-- `new Date(loan.dueDate)` followed by `setDate(getDate() + n)` and
re-formatting; an unparseable stored date becomes the Invalid Date
artifact (never reached by well-formed data). -/
def shiftDateString (n : Nat) (s : String) : String :=
  match parseIsoDate s with
  | some d => formatDate (addDays n d)
  | none => "Invalid Date"

/-- `LoanService.extendLoan(loanId, additionalDays)`: only `active` loans
can be extended; the new due date is the current due date plus
`additionalDays` calendar days. -/
def extendLoan (loanId : String) (additionalDays : Nat) (s : LibState) :
    OperationResult Loan × LibState :=
  match getById loanSchema loanId s.loans with
  | .err e => (.err e, s)
  | .ok loan =>
    if loan.status ≠ "active" then
      (.err "Can only extend active loans", s)
    else
      let newDueDate := shiftDateString additionalDays loan.dueDate
      ((update loanSchema loanId (fun l => { l with dueDate := newDueDate }) s.loans).1,
       { s with loans :=
          (update loanSchema loanId (fun l => { l with dueDate := newDueDate }) s.loans).2 })

/-- Loop condition of `updateOverdueStatuses`: `status === 'active'` and
`new Date(loan.dueDate) < today` (an Invalid Date compares false). -/
def overdueEligible (today : Date) (l : Loan) : Bool :=
  l.status == "active" &&
    (match parseIsoDate l.dueDate with
     | some d => dateLt d today
     | none => false)

/-- The `for (const loan of result.data)` loop of `updateOverdueStatuses`:
each eligible loan is updated in place (`this.update` re-scans the evolving
sheet); only successful updates are counted, failures do not abort. -/
def goOverdue (today : Date) : List Loan → Nat → Sheet → Nat × Sheet
  | [], c, sh => (c, sh)
  | l :: rest, c, sh =>
    if overdueEligible today l then
      goOverdue today rest
        (if (updateSheet loanSchema l.id (fun x => { x with status := "overdue" }) sh).1.isOk
         then c + 1 else c)
        (updateSheet loanSchema l.id (fun x => { x with status := "overdue" }) sh).2
    else goOverdue today rest c sh

/-- `LoanService.updateOverdueStatuses()`: scan all loans, transition
overdue actives, return the count of successful transitions. -/
def updateOverdueStatuses (today : Date) (loans : Option Sheet) :
    OperationResult Nat × Option Sheet :=
  match loans with
  | none => (.err (accessError loanSchema), none)
  | some ls =>
    (.ok (goOverdue today (getAllRows loanSchema (ls.drop 1)) 0 ls).1,
     some (goOverdue today (getAllRows loanSchema (ls.drop 1)) 0 ls).2)

/-- Aggregate validation result `{ valid, errors }`. -/
structure ValidationResult where
  valid : Bool
  errors : List String
deriving Repr, DecidableEq

/-- `EMAIL_REGEX = /^[^\s@]+@[^\s@]+\.[^\s@]+$/` as a decidable test: the
string matches iff it has no whitespace, exactly one `@` with at least one
character before it, and the part after the `@` contains a `.` with at
least one character on each side. -/
def emailRegexTest (s : String) : Bool :=
  match s.toList.splitOn '@' with
  | [a, rest] =>
    !a.isEmpty && (a ++ rest).all (fun c => !c.isWhitespace)
      && ((rest.drop 1).dropLast).contains '.'
  | _ => false

/-- `DATE_REGEX = /^\d{4}-\d{2}-\d{2}$/`. -/
def dateRegexTest (s : String) : Bool :=
  match s.toList.splitOn '-' with
  | [a, b, c] =>
    a.length = 4 && b.length = 2 && c.length = 2
      && allDigits a && allDigits b && allDigits c
  | _ => false

def VALID_BORROWER_STATUSES : List String := ["active", "suspended", "inactive"]

/-- `!x || x.trim().length === 0`: the string is empty or all whitespace. -/
def isBlank (s : String) : Bool :=
  s.toList.all Char.isWhitespace

/-- `validateBorrower` (src/utils/validation.ts): collects all violated
rules, in source order.  Fields are total strings; a TS `undefined` field
behaves like the empty string for every check below. -/
def validateBorrower (b : Borrower) : ValidationResult :=
  let errs1 := if isBlank b.name then ["Name is required"] else []
  let errs2 :=
    if isBlank b.email then ["Email is required"]
    else if !emailRegexTest b.email then ["Email format is invalid"]
    else []
  let errs3 :=
    if b.status ≠ "" && !VALID_BORROWER_STATUSES.contains b.status then
      ["Invalid status: " ++ b.status]
    else []
  let errs4 :=
    if b.joinDate ≠ "" && !dateRegexTest b.joinDate then
      ["Join date must be in yyyy-MM-dd format"]
    else []
  let errors := errs1 ++ errs2 ++ errs3 ++ errs4
  ⟨errors.isEmpty, errors⟩

/-- A candidate file in the Drive catalog: display name, id, last-modified
timestamp (ms), trashed flag.  The input list is restricted to spreadsheet
files, matching the `mimeType` clause of the search query. -/
structure DriveFile where
  name : String
  id : String
  lastUpdated : Nat
  trashed : Bool
deriving Repr, DecidableEq

/-- `DiscoveryResult` (src/types/config.ts). -/
structure DiscoveryResult where
  sheetName : String
  spreadsheetId : String
  spreadsheetName : String
  lastModified : Nat
deriving Repr, DecidableEq

/-- List-level prefix test (first argument: the string, second: the
pattern). -/
def listStarts : List Char → List Char → Bool
  | _, [] => true
  | [], _ :: _ => false
  | c :: cs, p :: ps => c == p && listStarts cs ps

/-- `name.startsWith(pat)`. -/
def nameStarts (s pat : String) : Bool :=
  listStarts s.toList pat.toList

/-- List-level substring containment (pattern first). -/
def listHas (ps : List Char) : List Char → Bool
  | [] => ps.isEmpty
  | c :: t => listStarts (c :: t) ps || listHas ps t

/-- Substring containment, modelling the `title contains '...'` clause of
the Drive search query.  (Anything the `startsWith` re-filter keeps is also
kept by this clause, so the final result does not depend on Drive's exact
`contains` semantics.) -/
def nameHas (s pat : String) : Bool :=
  listHas pat.toList s.toList

/-- The `DriveApp.searchFiles(query)` result: non-trashed spreadsheets whose
title contains the given text. -/
def driveQuery (pfx : String) (files : List DriveFile) : List DriveFile :=
  files.filter (fun f => !f.trashed && nameHas f.name pfx)

/-- The `while (files.hasNext())` loop: skip names that do not start with
the given text; keep the file with the strictly greatest last-updated
timestamp (ties keep the earlier listing). -/
def pickNewest (pfx : String) : List DriveFile → Option DriveFile → Option DriveFile
  | [], acc => acc
  | f :: rest, acc =>
    if !nameStarts f.name pfx then pickNewest pfx rest acc
    else
      match acc with
      | none => pickNewest pfx rest (some f)
      | some g =>
        if f.lastUpdated > g.lastUpdated then pickNewest pfx rest (some f)
        else pickNewest pfx rest acc

/-- `findNewestSpreadsheetByPrefix` (src/services/discovery.ts), over an
explicit Drive catalog. -/
def findNewestSpreadsheet (pfx : String) (files : List DriveFile) :
    Option DiscoveryResult :=
  match pickNewest pfx (driveQuery pfx files) none with
  | none => none
  | some f => some ⟨pfx, f.id, f.name, f.lastUpdated⟩

/-- Total version of the `update` row scan: not-found becomes the error the
source returns. -/
def updateRowsTotal {T : Type} (sch : EntitySchema T) (id : String)
    (patch : T → T) (rows : List Row) : OperationResult T × List Row :=
  match updateRows sch id patch rows with
  | none => (.err (notFoundError sch id), rows)
  | some p => p

/-- Data-row view of the `updateOverdueStatuses` loop (the header row is
carried along unchanged by every `update`). -/
def goRows (today : Date) : List Loan → Nat → List Row → Nat × List Row
  | [], c, rows => (c, rows)
  | l :: rest, c, rows =>
    if overdueEligible today l then
      goRows today rest
        (if (updateRowsTotal loanSchema l.id (fun x => { x with status := "overdue" }) rows).1.isOk
         then c + 1 else c)
        (updateRowsTotal loanSchema l.id (fun x => { x with status := "overdue" }) rows).2
    else goRows today rest c rows

/-- Whether a data row holds an active loan that is past due. -/
def eligRow (today : Date) (r : Row) : Bool :=
  match rowToEntity loanSchema r with
  | some l => overdueEligible today l
  | none => false

/-- Per-row effect of one `updateOverdueStatuses` run (with unique ids):
an active past-due row gets its first seven cells rewritten with status
`overdue`; every other row is untouched. -/
def overdueStep (today : Date) (r : Row) : Row :=
  match rowToEntity loanSchema r with
  | some l =>
    if overdueEligible today l then
      entityToRow loanSchema { l with status := "overdue" } ++ r.drop loanSchema.cols
    else r
  | none => r

/-- Per-row effect of a successful `processReturn` (with unique ids). -/
def returnStep (loanId : String) (updated : Loan) (r : Row) : Row :=
  if headCell r = some loanId then
    entityToRow loanSchema updated ++ r.drop loanSchema.cols
  else r

/-- Header row of the Borrowers sheet. -/
def hdrB : Row := ["id", "name", "email", "phone", "status", "joinDate", "notes"]

/-- Header row of the Media sheet. -/
def hdrM : Row := ["id", "title", "author", "type", "isbn", "status", "notes"]

/-- Header row of the Loans sheet. -/
def hdrL : Row := ["id", "borrowerId", "mediaId", "checkoutDate", "dueDate", "returnDate", "status"]

/-- A healthy small library: one active borrower, one available media item,
an empty Loans sheet. -/
def exState : LibState :=
  ⟨some [hdrB, ["B1", "Bob", "b@x.c", "", "active", "2024-01-01", ""]],
   some [hdrM, ["M1", "T", "A", "book", "", "available", ""]],
   some [hdrL]⟩

/-- Like `exState`, but the Media sheet carries a malformed row with the
same id ahead of the well-formed one: `getById` (and hence `isAvailable`)
skips the malformed row and succeeds, while `update` (hence `markAsOnLoan`)
hits it first and fails with a parse error — the in-model way to force the
item-status write of a checkout to fail after the loan row was created. -/
def exRollState : LibState :=
  ⟨some [hdrB, ["B1", "Bob", "b@x.c", "", "active", "2024-01-01", ""]],
   some [hdrM, ["M1"], ["M1", "T", "A", "book", "", "available", ""]],
   some [hdrL]⟩

/-- A library whose only loan is `lost` (with its media still on loan). -/
def exLostState : LibState :=
  ⟨some [hdrB],
   some [hdrM, ["M1", "T", "A", "book", "", "on-loan", ""]],
   some [hdrL, ["L1", "B1", "M1", "2024-01-01", "2024-01-15", "", "lost"]]⟩

/-- Loans sheet with a malformed row duplicating the id of a past-due
active loan: the update of that loan fails (parse error on the malformed
first match) and is not counted, while the scan continues to the next
loan. -/
def exOverdueSheet : Sheet :=
  [hdrL,
   ["A"],
   ["A", "B1", "M1", "2023-12-20", "2024-01-01", "", "active"],
   ["B", "B1", "M2", "2023-12-20", "2024-01-01", "", "active"],
   ["C", "B1", "M3", "2023-12-20", "2024-01-01", "", "returned"]]

/-- `exOverdueSheet` after `updateOverdueStatuses` on 2024-02-01: only the
`B` row was transitioned; the failed `A` update changed nothing. -/
def exOverdueSheetAfter : Sheet :=
  [hdrL,
   ["A"],
   ["A", "B1", "M1", "2023-12-20", "2024-01-01", "", "active"],
   ["B", "B1", "M2", "2023-12-20", "2024-01-01", "", "overdue"],
   ["C", "B1", "M3", "2023-12-20", "2024-01-01", "", "returned"]]

/-- The spec's discovery example: three candidates all having the kind
prefix, `Items-v2` most recently modified. -/
def exFiles : List DriveFile :=
  [⟨"Items", "id1", 10, false⟩,
   ⟨"Items-v2", "id2", 30, false⟩,
   ⟨"ItemsArchive", "id3", 20, false⟩]

end CCB

namespace CCB

theorem map_id_of {α : Type} (f : α → α) :
    ∀ l : List α, (∀ x ∈ l, f x = x) → l.map f = l
  | [], _ => rfl
  | x :: xs, h => by
    simp only [List.map_cons, List.cons.injEq]
    exact ⟨h x (List.mem_cons_self x xs),
      map_id_of f xs fun y hy => h y (List.mem_cons_of_mem x hy)⟩

theorem rowToEntity_some_cols {T : Type} {sch : EntitySchema T} {row : Row}
    {e : T} (h : rowToEntity sch row = some e) : sch.cols ≤ row.length := by
  unfold rowToEntity at h
  by_cases hl : row.length < sch.cols
  · simp [hl] at h
  · omega

theorem loan_parse_head {row : Row} {l : Loan}
    (h : rowToEntity loanSchema row = some l) : headCell row = some l.id := by
  rcases row with _ | ⟨a, _ | ⟨b, _ | ⟨c, _ | ⟨d, _ | ⟨e, _ | ⟨f, _ | ⟨g, rest⟩⟩⟩⟩⟩⟩⟩ <;>
    simp_all [rowToEntity, loanSchema, headCell, List.take]
  subst h
  rfl

theorem updateRows_err_unchanged {T : Type} {sch : EntitySchema T} {id : String}
    {patch : T → T} {e : String} :
    ∀ {rows rows' : List Row},
      updateRows sch id patch rows = some (.err e, rows') → rows' = rows := by
  intro rows
  induction rows with
  | nil => intro rows' h; simp [updateRows] at h
  | cons row rest ih =>
    intro rows' h
    by_cases hm : headCell row = some id
    · rw [updateRows, if_pos hm] at h
      cases hp : rowToEntity sch row with
      | none =>
        rw [hp] at h
        simp only [Option.some.injEq, Prod.mk.injEq] at h
        exact h.2.symm
      | some x => rw [hp] at h; simp at h
    · rw [updateRows, if_neg hm] at h
      cases hr : updateRows sch id patch rest with
      | none => rw [hr] at h; simp at h
      | some p =>
        rw [hr] at h
        obtain ⟨r0, rest'⟩ := p
        simp only [Option.some.injEq, Prod.mk.injEq] at h
        obtain ⟨h1, h2⟩ := h
        subst h2
        have h3 : updateRows sch id patch rest = some (.err e, rest') := by
          rw [hr, h1]
        rw [ih h3]

theorem updateSheet_err_unchanged {T : Type} {sch : EntitySchema T}
    {id : String} {patch : T → T} {ls : Sheet} {e : String}
    (h : (updateSheet sch id patch ls).1 = .err e) :
    (updateSheet sch id patch ls).2 = ls := by
  unfold updateSheet at h ⊢
  cases hr : updateRows sch id patch (ls.drop 1) with
  | none => simp [hr]
  | some p =>
    obtain ⟨r0, rest'⟩ := p
    rw [hr] at h
    simp only at h ⊢
    have h3 : updateRows sch id patch (ls.drop 1) = some (.err e, rest') := by
      rw [hr, h]
    rw [updateRows_err_unchanged h3, List.take_append_drop]

theorem update_err_unchanged {T : Type} {sch : EntitySchema T} {id : String}
    {patch : T → T} {sheet : Option Sheet} {e : String}
    (h : (update sch id patch sheet).1 = .err e) :
    (update sch id patch sheet).2 = sheet := by
  cases sheet with
  | none => rfl
  | some ls =>
    have h1 : (updateSheet sch id patch ls).1 = .err e := h
    show some (updateSheet sch id patch ls).2 = some ls
    rw [updateSheet_err_unchanged h1]

end CCB

namespace CCB

theorem getByIdRows_mem {T : Type} {sch : EntitySchema T} {id : String} :
    ∀ {rows : List Row} {e : T}, getByIdRows sch id rows = some e →
      ∃ r ∈ rows, headCell r = some id ∧ rowToEntity sch r = some e := by
  intro rows
  induction rows with
  | nil => intro e h; simp [getByIdRows] at h
  | cons row rest ih =>
    intro e h
    by_cases hm : headCell row = some id
    · rw [getByIdRows, if_pos hm] at h
      cases hp : rowToEntity sch row with
      | none =>
        rw [hp] at h
        obtain ⟨r, hr1, hr2⟩ := ih h
        exact ⟨r, List.mem_cons_of_mem row hr1, hr2⟩
      | some x =>
        rw [hp] at h
        obtain rfl := Option.some.inj h
        exact ⟨row, List.mem_cons_self row rest, hm, hp⟩
    · rw [getByIdRows, if_neg hm] at h
      obtain ⟨r, hr1, hr2⟩ := ih h
      exact ⟨r, List.mem_cons_of_mem row hr1, hr2⟩

theorem getByIdRows_all_malformed {T : Type} {sch : EntitySchema T}
    {id : String} :
    ∀ {rows : List Row},
      (∀ r ∈ rows, headCell r = some id → rowToEntity sch r = none) →
      getByIdRows sch id rows = none := by
  intro rows
  induction rows with
  | nil => intro _; rfl
  | cons row rest ih =>
    intro h
    by_cases hm : headCell row = some id
    · rw [getByIdRows, if_pos hm, h row (List.mem_cons_self row rest) hm]
      exact ih fun r hr => h r (List.mem_cons_of_mem row hr)
    · rw [getByIdRows, if_neg hm]
      exact ih fun r hr => h r (List.mem_cons_of_mem row hr)

theorem getByIdRows_first {T : Type} {sch : EntitySchema T} {id : String}
    {row : Row} {e : T} (post : List Row)
    (hm : headCell row = some id) (hp : rowToEntity sch row = some e) :
    ∀ pre : List Row,
      (∀ r ∈ pre, headCell r = some id → rowToEntity sch r = none) →
      getByIdRows sch id (pre ++ row :: post) = some e := by
  intro pre
  induction pre with
  | nil =>
    intro _
    rw [List.nil_append, getByIdRows, if_pos hm, hp]
  | cons q qre ih =>
    intro h
    by_cases hq : headCell q = some id
    · rw [List.cons_append, getByIdRows, if_pos hq,
        h q (List.mem_cons_self q qre) hq]
      exact ih fun r hr => h r (List.mem_cons_of_mem q hr)
    · rw [List.cons_append, getByIdRows, if_neg hq]
      exact ih fun r hr => h r (List.mem_cons_of_mem q hr)

theorem getByIdRows_append_fresh {T : Type} {sch : EntitySchema T}
    {id : String} {row : Row} {e : T}
    (hm : headCell row = some id) (hp : rowToEntity sch row = some e)
    (rows : List Row) (hfresh : ∀ r ∈ rows, headCell r ≠ some id) :
    getByIdRows sch id (rows ++ [row]) = some e :=
  getByIdRows_first [] hm hp rows
    (fun r hr hcontra => absurd hcontra (hfresh r hr))

theorem deleteRows_append_fresh {id : String} {row : Row}
    (hm : headCell row = some id) :
    ∀ rows : List Row, (∀ r ∈ rows, headCell r ≠ some id) →
      deleteRows id (rows ++ [row]) = some rows := by
  intro rows
  induction rows with
  | nil => intro _; rw [List.nil_append, deleteRows, if_pos hm]
  | cons q qre ih =>
    intro h
    rw [List.cons_append, deleteRows,
      if_neg (h q (List.mem_cons_self q qre)),
      ih fun r hr => h r (List.mem_cons_of_mem q hr)]

end CCB

namespace CCB

theorem nodup_head_notin {id : String} {row : Row} {rows : List Row}
    (hnd : ((row :: rows).filterMap headCell).Nodup)
    (hm : headCell row = some id) :
    ∀ r ∈ rows, headCell r ≠ some id := by
  intro r hr hcon
  rw [List.filterMap_cons, hm] at hnd
  exact (List.nodup_cons.mp hnd).1 (List.mem_filterMap.mpr ⟨r, hr, hcon⟩)

theorem nodup_tail {row : Row} {rows : List Row}
    (hnd : ((row :: rows).filterMap headCell).Nodup) :
    (rows.filterMap headCell).Nodup := by
  rw [List.filterMap_cons] at hnd
  cases hh : headCell row with
  | none => rw [hh] at hnd; exact hnd
  | some a => rw [hh] at hnd; exact (List.nodup_cons.mp hnd).2

theorem loanSchema_setId_congr (i : String) (l : Loan) (h : l.id = i) :
    loanSchema.setId i l = l := by
  cases l
  cases h
  rfl

theorem getByIdRows_loan_id {rows : List Row} {id : String} {loan : Loan}
    (h : getByIdRows loanSchema id rows = some loan) : loan.id = id := by
  obtain ⟨r, _, hm, hp⟩ := getByIdRows_mem h
  have h2 := loan_parse_head hp
  rw [h2] at hm
  exact Option.some.inj hm

theorem updateRows_of_getByIdRows {T : Type} {sch : EntitySchema T}
    {id : String} (patch : T → T) :
    ∀ {rows : List Row} {e : T},
      ((rows.filterMap headCell).Nodup) →
      getByIdRows sch id rows = some e →
      updateRows sch id patch rows
        = some (.ok (sch.setId id (patch e)),
            rows.map fun r =>
              if headCell r = some id
              then entityToRow sch (sch.setId id (patch e)) ++ r.drop sch.cols
              else r) := by
  intro rows
  induction rows with
  | nil => intro e _ hget; simp [getByIdRows] at hget
  | cons row rest ih =>
    intro e hnd hget
    by_cases hm : headCell row = some id
    · rw [getByIdRows, if_pos hm] at hget
      cases hp : rowToEntity sch row with
      | some x =>
        rw [hp] at hget
        obtain rfl := Option.some.inj hget
        rw [updateRows, if_pos hm, hp]
        rw [List.map_cons, if_pos hm]
        have hrest : (rest.map fun r =>
            if headCell r = some id
            then entityToRow sch (sch.setId id (patch x)) ++ r.drop sch.cols
            else r) = rest := by
          apply map_id_of
          intro r hr
          rw [if_neg (nodup_head_notin hnd hm r hr)]
        rw [hrest]
      | none =>
        rw [hp] at hget
        obtain ⟨r, hr1, hr2, -⟩ := getByIdRows_mem hget
        exact absurd hr2 (nodup_head_notin hnd hm r hr1)
    · rw [getByIdRows, if_neg hm] at hget
      rw [updateRows, if_neg hm, ih (nodup_tail hnd) hget,
        List.map_cons, if_neg hm]

end CCB

namespace CCB

/-- C2: for a checkout whose member resolves with a status other than
`active`, or whose member is active but whose item resolves with a status
other than `available`, the call fails with that precondition's specific
message ("Borrower is not in good standing" / "Media item is not available
for checkout") and the entire state — loan store and media store — is
returned unchanged (no writes). -/
theorem C2_checkout_precondition_failures
    (today : Date) (newId borrowerId mediaId : String) (loanDays : Nat)
    (s : LibState) :
    (∀ m : Borrower,
      getById borrowerSchema borrowerId s.borrowers = .ok m →
      m.status ≠ "active" →
      checkout today newId borrowerId mediaId loanDays s
        = (.err "Borrower is not in good standing", s))
  ∧ (∀ (m : Borrower) (it : Media),
      getById borrowerSchema borrowerId s.borrowers = .ok m →
      m.status = "active" →
      getById mediaSchema mediaId s.media = .ok it →
      it.status ≠ "available" →
      checkout today newId borrowerId mediaId loanDays s
        = (.err "Media item is not available for checkout", s)) := by
  constructor
  · intro m hget hne
    unfold checkout isInGoodStanding
    rw [hget]
    have hb : (m.status == "active") = false := by
      simp [hne]
    simp [hb]
  · intro m it hget hst hgetm hne
    unfold checkout isInGoodStanding isAvailable
    rw [hget, hgetm]
    have hb : (m.status == "active") = true := by simp [hst]
    have hb2 : (it.status == "available") = false := by simp [hne]
    simp [hb, hb2]

/-- C2 witness: a suspended member and an on-loan item each make a concrete
checkout fail with the matching specific message, leaving the state
untouched. -/
theorem C2_checkout_precondition_failures_witness :
    (checkout ⟨2024, 1, 15⟩ "L1" "B1" "M1" 14
        ⟨some [hdrB, ["B1", "Bob", "b@x.c", "", "suspended", "2024-01-01", ""]],
         some [hdrM, ["M1", "T", "A", "book", "", "available", ""]],
         some [hdrL]⟩
      = (.err "Borrower is not in good standing",
         ⟨some [hdrB, ["B1", "Bob", "b@x.c", "", "suspended", "2024-01-01", ""]],
          some [hdrM, ["M1", "T", "A", "book", "", "available", ""]],
          some [hdrL]⟩))
  ∧ (checkout ⟨2024, 1, 15⟩ "L1" "B1" "M1" 14
        ⟨some [hdrB, ["B1", "Bob", "b@x.c", "", "active", "2024-01-01", ""]],
         some [hdrM, ["M1", "T", "A", "book", "", "on-loan", ""]],
         some [hdrL]⟩
      = (.err "Media item is not available for checkout",
         ⟨some [hdrB, ["B1", "Bob", "b@x.c", "", "active", "2024-01-01", ""]],
          some [hdrM, ["M1", "T", "A", "book", "", "on-loan", ""]],
          some [hdrL]⟩)) := by
  constructor
  · exact (C2_checkout_precondition_failures ⟨2024, 1, 15⟩ "L1" "B1" "M1" 14 _).1
      ⟨"B1", "Bob", "b@x.c", "", "suspended", "2024-01-01", ""⟩
      (by decide) (by decide)
  · exact (C2_checkout_precondition_failures ⟨2024, 1, 15⟩ "L1" "B1" "M1" 14 _).2
      ⟨"B1", "Bob", "b@x.c", "", "active", "2024-01-01", ""⟩
      ⟨"M1", "T", "A", "book", "", "on-loan", ""⟩
      (by decide) (by decide) (by decide) (by decide)

end CCB

namespace CCB

/-- C6 counterexample: borrower creation performs no validation, so the
claim "every member record put into the store has a non-empty,
pattern-valid email" is false: creating a borrower with an empty email
succeeds, stores the record (with empty email cell) in the sheet, and the
stored record fails both the non-emptiness/pattern invariant and the
system's own `validateBorrower`. -/
theorem C6_counterexample :
    (createBorrower ⟨2024, 1, 1⟩ "B9" "Alice" "" "" "" (some [hdrB])).1
        = .ok ⟨"B9", "Alice", "", "", "active", "2024-01-01", ""⟩
  ∧ (createBorrower ⟨2024, 1, 1⟩ "B9" "Alice" "" "" "" (some [hdrB])).2
        = some [hdrB, ["B9", "Alice", "", "", "active", "2024-01-01", ""]]
  ∧ ¬((Borrower.email ⟨"B9", "Alice", "", "", "active", "2024-01-01", ""⟩) ≠ ""
        ∧ emailRegexTest (Borrower.email ⟨"B9", "Alice", "", "", "active", "2024-01-01", ""⟩) = true)
  ∧ validateBorrower ⟨"B9", "Alice", "", "", "active", "2024-01-01", ""⟩
        = ⟨false, ["Email is required"]⟩ := by
  refine ⟨by decide, by decide, by decide, by decide⟩

/-- C6 (amended): member creation stores the input email verbatim without
any validation and defaults status to `active`; consequently the stored
record satisfies the member email invariant (non-empty and matching the
address pattern) exactly when the raw input already does — the invariant is
not enforced at creation. -/
theorem C6_createBorrower_stores_email_verbatim
    (today : Date) (newId name email phone notes : String) (s : Sheet) :
    ∃ b : Borrower,
      createBorrower today newId name email phone notes (some s)
          = (.ok b, some (s ++ [entityToRow borrowerSchema b]))
      ∧ b.email = email
      ∧ b.status = "active"
      ∧ ((b.email ≠ "" ∧ emailRegexTest b.email = true) ↔
          (email ≠ "" ∧ emailRegexTest email = true)) :=
  ⟨⟨newId, name, email, phone, "active", formatDate today, notes⟩,
    rfl, rfl, rfl, Iff.rfl⟩

end CCB

namespace CCB

/-- C5: for any schema satisfying the column-list laws (field list of schema
length, id in column 0, row/record inverse — all three concrete schemas
satisfy them), `create` followed by `getById` on the returned record's id
over a headered sheet with a fresh id yields exactly the created record;
and the untyped row-mapping round trip preserves every populated field and
normalizes absent (`undefined`) fields to the empty string. -/
theorem C5_create_getById_roundtrip :
    (∀ (T : Type) (sch : EntitySchema T) (newId : String) (input : T)
        (hdr : Row) (rows : List Row),
      (∀ r ∈ rows, headCell r ≠ some newId) →
      headCell (entityToRow sch (sch.setId newId input)) = some newId →
      (entityToRow sch (sch.setId newId input)).length = sch.cols →
      sch.ofFields (entityToRow sch (sch.setId newId input))
          = some (sch.setId newId input) →
      create sch newId input (some (hdr :: rows))
          = (.ok (sch.setId newId input),
             some ((hdr :: rows) ++ [entityToRow sch (sch.setId newId input)]))
        ∧ getById sch newId (create sch newId input (some (hdr :: rows))).2
          = .ok (sch.setId newId input))
  ∧ (∀ (cols : Nat) (e : List (Option String)), e.length = cols →
      rowToEntityRaw cols (entityToRowRaw e)
        = some (e.map fun v => some (v.getD ""))) := by
  constructor
  · intro T sch newId input hdr rows hfresh hhead hlen hof
    refine ⟨rfl, ?_⟩
    show getById sch newId
      (some ((hdr :: rows) ++ [entityToRow sch (sch.setId newId input)])) = _
    unfold getById
    have hp : rowToEntity sch (entityToRow sch (sch.setId newId input))
        = some (sch.setId newId input) := by
      unfold rowToEntity
      rw [if_neg (by omega), List.take_of_length_le (by omega), hof]
    simp only [List.cons_append, List.drop_succ_cons, List.drop_zero]
    rw [getByIdRows_append_fresh hhead hp rows hfresh]
  · intro cols e hlen
    subst hlen
    unfold rowToEntityRaw entityToRowRaw
    rw [if_neg (by simp), List.take_of_length_le (by simp), List.map_map]
    rfl

/-- C5 witness: a concrete loan record created on a headered Loans sheet is
read back unchanged by `getById`, and a concrete raw record with one absent
field round-trips with the absent field normalized to the empty string. -/
theorem C5_create_getById_roundtrip_witness :
    (getById loanSchema "L7"
        (create loanSchema "L7"
          ⟨"", "B1", "M1", "2024-01-15", "2024-01-29", "", "active"⟩
          (some [hdrL])).2
      = .ok ⟨"L7", "B1", "M1", "2024-01-15", "2024-01-29", "", "active"⟩)
  ∧ (rowToEntityRaw 3 (entityToRowRaw [some "x", none, some "z"])
      = some [some "x", some "", some "z"]) := by
  constructor
  · exact (C5_create_getById_roundtrip.1 Loan loanSchema "L7"
      ⟨"", "B1", "M1", "2024-01-15", "2024-01-29", "", "active"⟩
      hdrL [] (by decide) (by decide) (by decide) (by decide)).2
  · exact C5_create_getById_roundtrip.2 3 [some "x", none, some "z"] (by decide)

/-- C10: `getById` never builds a record from a row shorter than the column
list: any successful lookup comes from a matching row at least as wide as
the schema; when every matching row is malformed the result is the
not-found error; and when a malformed matching row precedes a well-formed
matching row, the scan skips the malformed one and returns the record of
the first well-formed match. -/
theorem C10_getById_skips_short_rows
    (T : Type) (sch : EntitySchema T) (id : String) (hdr : Row) :
    (∀ (rows : List Row) (e : T),
      getById sch id (some (hdr :: rows)) = .ok e →
      ∃ r ∈ rows, headCell r = some id ∧ sch.cols ≤ r.length
        ∧ rowToEntity sch r = some e)
  ∧ (∀ rows : List Row,
      (∀ r ∈ rows, headCell r = some id → rowToEntity sch r = none) →
      getById sch id (some (hdr :: rows)) = .err (notFoundError sch id))
  ∧ (∀ (pre post : List Row) (row : Row) (e : T),
      (∀ r ∈ pre, headCell r = some id → rowToEntity sch r = none) →
      headCell row = some id → rowToEntity sch row = some e →
      getById sch id (some (hdr :: (pre ++ row :: post))) = .ok e) := by
  refine ⟨?_, ?_, ?_⟩
  · intro rows e h
    unfold getById at h
    simp only [List.drop_succ_cons, List.drop_zero] at h
    cases hg : getByIdRows sch id rows with
    | none => rw [hg] at h; simp at h
    | some x =>
      rw [hg] at h
      obtain rfl : x = e := by
        simpa using h
      obtain ⟨r, hr1, hr2, hr3⟩ := getByIdRows_mem hg
      exact ⟨r, hr1, hr2, rowToEntity_some_cols hr3, hr3⟩
  · intro rows h
    unfold getById
    simp only [List.drop_succ_cons, List.drop_zero]
    rw [getByIdRows_all_malformed h]
  · intro pre post row e hpre hm hp
    unfold getById
    simp only [List.drop_succ_cons, List.drop_zero]
    rw [getByIdRows_first post hm hp pre hpre]

/-- C10 witness: on a sheet where the id `X` appears first on a 1-cell
malformed row and later on a well-formed row, `getById` returns the
well-formed record; on a sheet where `X` appears only on the malformed row,
it reports not-found. -/
theorem C10_getById_skips_short_rows_witness :
    (getById mediaSchema "X"
        (some [hdrM, ["X"], ["X", "T", "A", "book", "", "available", ""]])
      = .ok ⟨"X", "T", "A", "book", "", "available", ""⟩)
  ∧ (getById mediaSchema "X" (some [hdrM, ["X"]])
      = .err (notFoundError mediaSchema "X")) := by
  constructor
  · exact (C10_getById_skips_short_rows Media mediaSchema "X" hdrM).2.2
      [["X"]] [] ["X", "T", "A", "book", "", "available", ""]
      ⟨"X", "T", "A", "book", "", "available", ""⟩
      (by decide) (by decide) (by decide)
  · exact (C10_getById_skips_short_rows Media mediaSchema "X" hdrM).2.1
      [["X"]] (by decide)

end CCB

namespace CCB

theorem listStarts_listHas : ∀ {cs ps : List Char},
    listStarts cs ps = true → listHas ps cs = true := by
  intro cs ps h
  cases cs with
  | nil =>
    cases ps with
    | nil => rfl
    | cons p pt => simp [listStarts] at h
  | cons c t =>
    unfold listHas
    rw [h]
    rfl

theorem nameStarts_nameHas {s pat : String} (h : nameStarts s pat = true) :
    nameHas s pat = true :=
  listStarts_listHas h

theorem pickNewest_go (pfx : String) :
    ∀ (files : List DriveFile) (acc : Option DriveFile),
      (pickNewest pfx files acc = none ↔
        acc = none ∧ ∀ f ∈ files, nameStarts f.name pfx = false)
      ∧ (∀ r, pickNewest pfx files acc = some r →
          ((r ∈ files ∧ nameStarts r.name pfx = true) ∨ acc = some r)
          ∧ (∀ f ∈ files, nameStarts f.name pfx = true →
              f.lastUpdated ≤ r.lastUpdated)
          ∧ (∀ g, acc = some g → g.lastUpdated ≤ r.lastUpdated)) := by
  intro files
  induction files with
  | nil =>
    intro acc
    constructor
    · simp [pickNewest]
    · intro r h
      rw [pickNewest] at h
      refine ⟨Or.inr h, by simp, ?_⟩
      intro g hg
      rw [h] at hg
      obtain rfl := Option.some.inj hg
      exact le_refl _
  | cons f rest ih =>
    intro acc
    by_cases hq : nameStarts f.name pfx = true
    · cases acc with
      | none =>
        have hstep : pickNewest pfx (f :: rest) none = pickNewest pfx rest (some f) := by
          simp [pickNewest, hq]
        constructor
        · rw [hstep]
          constructor
          · intro h
            rcases ((ih (some f)).1.mp h) with ⟨hcon, -⟩
            exact absurd hcon (by simp)
          · rintro ⟨-, hall⟩
            exact absurd (hall f (List.mem_cons_self f rest)) (by simp [hq])
        · intro r h
          rw [hstep] at h
          obtain ⟨hmem, hmax, hacc⟩ := (ih (some f)).2 r h
          refine ⟨?_, ?_, ?_⟩
          · rcases hmem with ⟨h1, h2⟩ | h1
            · exact Or.inl ⟨List.mem_cons_of_mem f h1, h2⟩
            · exact Or.inl ⟨(Option.some.inj h1) ▸ List.mem_cons_self f rest,
                (Option.some.inj h1) ▸ hq⟩
          · intro g hg hgq
            rcases List.mem_cons.mp hg with rfl | hg'
            · exact hacc g rfl
            · exact hmax g hg' hgq
          · intro g hg
            exact absurd hg (by simp)
      | some a =>
        by_cases hgt : f.lastUpdated > a.lastUpdated
        · have hstep : pickNewest pfx (f :: rest) (some a) = pickNewest pfx rest (some f) := by
            simp [pickNewest, hq, hgt]
          constructor
          · rw [hstep]
            constructor
            · intro h
              rcases ((ih (some f)).1.mp h) with ⟨hcon, -⟩
              exact absurd hcon (by simp)
            · rintro ⟨hcon, -⟩
              exact absurd hcon (by simp)
          · intro r h
            rw [hstep] at h
            obtain ⟨hmem, hmax, hacc⟩ := (ih (some f)).2 r h
            refine ⟨?_, ?_, ?_⟩
            · rcases hmem with ⟨h1, h2⟩ | h1
              · exact Or.inl ⟨List.mem_cons_of_mem f h1, h2⟩
              · exact Or.inl ⟨(Option.some.inj h1) ▸ List.mem_cons_self f rest,
                  (Option.some.inj h1) ▸ hq⟩
            · intro g hg hgq
              rcases List.mem_cons.mp hg with rfl | hg'
              · exact hacc g rfl
              · exact hmax g hg' hgq
            · intro g hg
              obtain rfl := Option.some.inj hg
              exact le_trans (le_of_lt hgt) (hacc f rfl)
        · have hstep : pickNewest pfx (f :: rest) (some a) = pickNewest pfx rest (some a) := by
            simp [pickNewest, hq, hgt]
          constructor
          · rw [hstep]
            constructor
            · intro h
              rcases ((ih (some a)).1.mp h) with ⟨hcon, -⟩
              exact absurd hcon (by simp)
            · rintro ⟨hcon, -⟩
              exact absurd hcon (by simp)
          · intro r h
            rw [hstep] at h
            obtain ⟨hmem, hmax, hacc⟩ := (ih (some a)).2 r h
            refine ⟨?_, ?_, ?_⟩
            · rcases hmem with ⟨h1, h2⟩ | h1
              · exact Or.inl ⟨List.mem_cons_of_mem f h1, h2⟩
              · exact Or.inr h1
            · intro g hg hgq
              rcases List.mem_cons.mp hg with rfl | hg'
              · exact le_trans (by omega) (hacc a rfl)
              · exact hmax g hg' hgq
            · intro g hg
              obtain rfl := Option.some.inj hg
              exact hacc a rfl
    · have hq' : nameStarts f.name pfx = false := by
        simpa using hq
      have hstep : pickNewest pfx (f :: rest) acc = pickNewest pfx rest acc := by
        simp [pickNewest, hq']
      constructor
      · rw [hstep]
        constructor
        · intro h
          obtain ⟨h1, h2⟩ := (ih acc).1.mp h
          refine ⟨h1, ?_⟩
          intro g hg
          rcases List.mem_cons.mp hg with rfl | hg'
          · simpa using hq
          · exact h2 g hg'
        · rintro ⟨h1, h2⟩
          exact (ih acc).1.mpr ⟨h1, fun g hg => h2 g (List.mem_cons_of_mem f hg)⟩
      · intro r h
        rw [hstep] at h
        obtain ⟨hmem, hmax, hacc⟩ := (ih acc).2 r h
        refine ⟨?_, ?_, ?_⟩
        · rcases hmem with ⟨h1, h2⟩ | h1
          · exact Or.inl ⟨List.mem_cons_of_mem f h1, h2⟩
          · exact Or.inr h1
        · intro g hg hgq
          rcases List.mem_cons.mp hg with rfl | hg'
          · exact absurd hgq hq
          · exact hmax g hg' hgq
        · exact hacc

end CCB

namespace CCB

/-- C7: over any candidate catalog, the locator resolves to a candidate
whose display name starts with the canonical kind text (case-sensitive
prefix match — a candidate containing it only as a non-prefix substring is
never selected, even though the catalog query keeps it) and which is not
trashed, with maximal last-modified timestamp among all such candidates;
when no candidate's name starts with the text, it reports not found. -/
theorem C7_resource_locator (pfx : String) (files : List DriveFile) :
    (findNewestSpreadsheet pfx files = none ↔
      ∀ f ∈ files, ¬(f.trashed = false ∧ nameStarts f.name pfx = true))
  ∧ (∀ res, findNewestSpreadsheet pfx files = some res →
      ∃ f, f ∈ files ∧ f.trashed = false ∧ nameStarts f.name pfx = true
        ∧ res = ⟨pfx, f.id, f.name, f.lastUpdated⟩
        ∧ ∀ g ∈ files, g.trashed = false → nameStarts g.name pfx = true →
            g.lastUpdated ≤ f.lastUpdated) := by
  have hmem : ∀ f : DriveFile,
      f ∈ driveQuery pfx files ↔
        f ∈ files ∧ f.trashed = false ∧ nameHas f.name pfx = true := by
    intro f
    unfold driveQuery
    rw [List.mem_filter]
    simp
  have hgo := pickNewest_go pfx (driveQuery pfx files) none
  unfold findNewestSpreadsheet
  cases hp : pickNewest pfx (driveQuery pfx files) none with
  | none =>
    refine ⟨⟨fun _ => ?_, fun _ => rfl⟩, ?_⟩
    · intro f hf hcon
      obtain ⟨-, hall⟩ := hgo.1.mp hp
      have hfq : f ∈ driveQuery pfx files :=
        (hmem f).mpr ⟨hf, hcon.1, nameStarts_nameHas hcon.2⟩
      exact absurd (hall f hfq) (by simp [hcon.2])
    · intro res hres
      simp at hres
  | some f0 =>
    obtain ⟨hmem0, hmax0, -⟩ := hgo.2 f0 hp
    rcases hmem0 with ⟨hin, hq0⟩ | hcon
    · obtain ⟨hf0, htr0, hhas0⟩ := (hmem f0).mp hin
      refine ⟨⟨fun h => by simp at h,
        fun hall => absurd ⟨htr0, hq0⟩ (hall f0 hf0)⟩, ?_⟩
      intro res hres
      simp only [Option.some.injEq] at hres
      refine ⟨f0, hf0, htr0, hq0, hres.symm, ?_⟩
      intro g hg htr hst
      exact hmax0 g ((hmem g).mpr ⟨hg, htr, nameStarts_nameHas hst⟩) hst
    · simp at hcon

/-- C7 witness: on the spec's example catalog — `Items`, `Items-v2`
(most recently modified), `ItemsArchive` — the locator resolves kind text
`Items` to `Items-v2`, and the theorem's maximality consequence holds at
that catalog. -/
theorem C7_resource_locator_witness :
    findNewestSpreadsheet "Items" exFiles
      = some ⟨"Items", "id2", "Items-v2", 30⟩
  ∧ ∃ f, f ∈ exFiles ∧ f.trashed = false ∧ nameStarts f.name "Items" = true
      ∧ (⟨"Items", "id2", "Items-v2", 30⟩ : DiscoveryResult)
          = ⟨"Items", f.id, f.name, f.lastUpdated⟩
      ∧ ∀ g ∈ exFiles, g.trashed = false → nameStarts g.name "Items" = true →
          g.lastUpdated ≤ f.lastUpdated := by
  constructor
  · decide
  · exact (C7_resource_locator "Items" exFiles).2
      ⟨"Items", "id2", "Items-v2", 30⟩ (by decide)

end CCB

namespace CCB

theorem delete_cons {T : Type} (sch : EntitySchema T) (id : String)
    (hdr : Row) (rows : List Row) :
    delete sch id (some (hdr :: rows))
      = match deleteRows id rows with
        | none => (.err (notFoundError sch id), some (hdr :: rows))
        | some rest' => (.ok (), some (hdr :: rest')) := by
  have hdrop : List.drop 1 (hdr :: rows) = rows := rfl
  have htake : List.take 1 (hdr :: rows) = [hdr] := rfl
  simp only [delete, hdrop, htake]
  cases deleteRows id rows <;> rfl

/-- C1: when both checkout preconditions pass, the loan row is created, and
the subsequent item-status update to `on-loan` fails, checkout deletes the
just-created loan row (whose generated id is fresh) and returns the
item-update error; the final state equals the initial state, so no loan row
remains after the failed checkout. -/
theorem C1_checkout_rollback
    (today : Date) (newId borrowerId mediaId : String) (loanDays : Nat)
    (s : LibState) (hdr : Row) (tl : List Row) (e : String)
    (hloans : s.loans = some (hdr :: tl))
    (hfresh : ∀ r ∈ tl, headCell r ≠ some newId)
    (hgood : isInGoodStanding borrowerId s.borrowers = .ok true)
    (havail : isAvailable mediaId s.media = .ok true)
    (hfail : (markAsOnLoan mediaId s.media).1 = .err e) :
    checkout today newId borrowerId mediaId loanDays s
      = (.err ("Failed to update media status: " ++ e), s) := by
  unfold checkout
  rw [hgood, havail, hloans]
  cases hmu : markAsOnLoan mediaId s.media with
  | mk r1 media' =>
    have hre : r1 = .err e := by
      have h1 := hfail
      rw [hmu] at h1
      exact h1
    subst hre
    have hmedia : media' = s.media := by
      have h2 : (markAsOnLoan mediaId s.media).2 = s.media :=
        update_err_unchanged hfail
      rw [hmu] at h2
      exact h2
    subst hmedia
    have hm0 : headCell (entityToRow loanSchema (loanSchema.setId newId
        ⟨"", borrowerId, mediaId, formatDate today,
         formatDate (addDays loanDays today), "", "active"⟩)) = some newId := rfl
    have hdel : delete loanSchema
        (loanSchema.setId newId
          ⟨"", borrowerId, mediaId, formatDate today,
           formatDate (addDays loanDays today), "", "active"⟩).id
        (some (hdr :: tl ++ [entityToRow loanSchema (loanSchema.setId newId
          ⟨"", borrowerId, mediaId, formatDate today,
           formatDate (addDays loanDays today), "", "active"⟩)]))
        = (.ok (), some (hdr :: tl)) := by
      show delete loanSchema newId _ = _
      rw [List.cons_append, delete_cons, deleteRows_append_fresh hm0 tl hfresh]
    simp only [create]
    rw [hdel]
    rw [← hloans]
    rfl

end CCB

namespace CCB

theorem update_cons {T : Type} (sch : EntitySchema T) (id : String)
    (patch : T → T) (hdr : Row) (rows : List Row) :
    update sch id patch (some (hdr :: rows))
      = match updateRows sch id patch rows with
        | none => (.err (notFoundError sch id), some (hdr :: rows))
        | some (r, rest') => (r, some (hdr :: rest')) := by
  have hdrop : List.drop 1 (hdr :: rows) = rows := rfl
  have htake : List.take 1 (hdr :: rows) = [hdr] := rfl
  simp only [update, updateSheet, hdrop, htake]
  cases updateRows sch id patch rows with
  | none => rfl
  | some p =>
    obtain ⟨r, rest'⟩ := p
    rfl

theorem updateSheet_cons {T : Type} (sch : EntitySchema T) (id : String)
    (patch : T → T) (hdr : Row) (rows : List Row) :
    updateSheet sch id patch (hdr :: rows)
      = ((updateRowsTotal sch id patch rows).1,
         hdr :: (updateRowsTotal sch id patch rows).2) := by
  have hdrop : List.drop 1 (hdr :: rows) = rows := rfl
  have htake : List.take 1 (hdr :: rows) = [hdr] := rfl
  simp only [updateSheet, updateRowsTotal, hdrop, htake]
  cases updateRows sch id patch rows with
  | none => rfl
  | some p =>
    obtain ⟨r, rest'⟩ := p
    rfl

theorem getAllRows_head {rows : List Row} {l : Loan}
    (h : l ∈ getAllRows loanSchema rows) :
    ∃ r ∈ rows, headCell r = some l.id := by
  obtain ⟨r, hr, hp⟩ := List.mem_filterMap.mp h
  exact ⟨r, hr, loan_parse_head hp⟩

theorem skip_cond {r : Row} {rest : List Row}
    (hnd : ((r :: rest).filterMap headCell).Nodup) :
    ∀ l ∈ getAllRows loanSchema rest, headCell r ≠ some l.id := by
  intro l hl hcon
  obtain ⟨r', hr', hm'⟩ := getAllRows_head hl
  exact nodup_head_notin hnd hcon r' hr' hm'

theorem processReturn_ok (today : Date) (loanId : String) (s : LibState)
    (hdr : Row) (rows : List Row) (loan : Loan)
    (hloans : s.loans = some (hdr :: rows))
    (hnd : (rows.filterMap headCell).Nodup)
    (hget : getByIdRows loanSchema loanId rows = some loan)
    (hst : loan.status ≠ "returned") :
    processReturn today loanId s
      = (.ok { loan with returnDate := formatDate today, status := "returned" },
         { s with
            loans := some (hdr :: rows.map (returnStep loanId
              { loan with returnDate := formatDate today, status := "returned" })),
            media := (markAsAvailable loan.mediaId s.media).2 }) := by
  have hid : loan.id = loanId := getByIdRows_loan_id hget
  have hset : loanSchema.setId loanId
      { loan with returnDate := formatDate today, status := "returned" }
      = { loan with returnDate := formatDate today, status := "returned" } :=
    loanSchema_setId_congr loanId _ hid
  have hg2 : getById loanSchema loanId s.loans = .ok loan := by
    rw [hloans]
    unfold getById
    simp only [List.drop_succ_cons, List.drop_zero]
    rw [hget]
  unfold processReturn
  simp only [hg2]
  rw [if_neg hst, hloans, update_cons,
    updateRows_of_getByIdRows
      (fun l => { l with returnDate := formatDate today, status := "returned" })
      hnd hget]
  simp only [hset]
  rfl

end CCB

namespace CCB

theorem goOverdue_eq (today : Date) :
    ∀ (loans : List Loan) (c : Nat) (hdr : Row) (rows : List Row),
      goOverdue today loans c (hdr :: rows)
        = ((goRows today loans c rows).1, hdr :: (goRows today loans c rows).2) := by
  intro loans
  induction loans with
  | nil => intro c hdr rows; rfl
  | cons l rest ih =>
    intro c hdr rows
    by_cases he : overdueEligible today l = true
    · rw [goOverdue, goRows, if_pos he, if_pos he,
        updateSheet_cons loanSchema l.id (fun x => { x with status := "overdue" }) hdr rows,
        ih]
    · rw [goOverdue, goRows, if_neg he, if_neg he, ih]

theorem goRows_skip (today : Date) :
    ∀ (loans : List Loan) (c : Nat) (r : Row) (rest : List Row),
      (∀ l ∈ loans, headCell r ≠ some l.id) →
      goRows today loans c (r :: rest)
        = ((goRows today loans c rest).1, r :: (goRows today loans c rest).2) := by
  intro loans
  induction loans with
  | nil => intro c r rest _; rfl
  | cons l ls ih =>
    intro c r rest hno
    by_cases he : overdueEligible today l = true
    · have hup : updateRowsTotal loanSchema l.id
          (fun x => { x with status := "overdue" }) (r :: rest)
          = ((updateRowsTotal loanSchema l.id
              (fun x => { x with status := "overdue" }) rest).1,
             r :: (updateRowsTotal loanSchema l.id
              (fun x => { x with status := "overdue" }) rest).2) := by
        unfold updateRowsTotal
        rw [updateRows, if_neg (hno l (List.mem_cons_self l ls))]
        cases updateRows loanSchema l.id (fun x => { x with status := "overdue" }) rest with
        | none => rfl
        | some p =>
          obtain ⟨r0, rest'⟩ := p
          rfl
      rw [goRows, if_pos he, hup, goRows, if_pos he]
      exact ih _ r _ fun l' hl' => hno l' (List.mem_cons_of_mem l hl')
    · rw [goRows, if_neg he, goRows, if_neg he]
      exact ih c r rest fun l' hl' => hno l' (List.mem_cons_of_mem l hl')

theorem goRows_spec (today : Date) :
    ∀ (rows : List Row) (c : Nat),
      ((rows.filterMap headCell).Nodup) →
      goRows today (getAllRows loanSchema rows) c rows
        = (c + (rows.countP (eligRow today)), rows.map (overdueStep today)) := by
  intro rows
  induction rows with
  | nil => intro c _; simp [getAllRows, goRows]
  | cons r rest ih =>
    intro c hnd
    cases hp : rowToEntity loanSchema r with
    | none =>
      have hall : getAllRows loanSchema (r :: rest) = getAllRows loanSchema rest := by
        unfold getAllRows
        rw [List.filterMap_cons, hp]
      have hstep : overdueStep today r = r := by
        unfold overdueStep
        simp only [hp]
      have helig : eligRow today r = false := by
        unfold eligRow
        simp only [hp]
      rw [hall, goRows_skip today _ c r rest (skip_cond hnd),
        ih c (nodup_tail hnd), List.map_cons, hstep, List.countP_cons, helig]
      simp
    | some l =>
      have hall : getAllRows loanSchema (r :: rest) = l :: getAllRows loanSchema rest := by
        unfold getAllRows
        rw [List.filterMap_cons, hp]
      have hm : headCell r = some l.id := loan_parse_head hp
      have helig : eligRow today r = overdueEligible today l := by
        unfold eligRow
        simp only [hp]
      rw [hall]
      by_cases he : overdueEligible today l = true
      · have hstep : overdueStep today r
            = entityToRow loanSchema { l with status := "overdue" }
              ++ r.drop loanSchema.cols := by
          unfold overdueStep
          simp only [hp]
          rw [if_pos he]
        have hup : updateRowsTotal loanSchema l.id
            (fun x => { x with status := "overdue" }) (r :: rest)
            = (.ok { l with status := "overdue" }, overdueStep today r :: rest) := by
          unfold updateRowsTotal
          rw [updateRows, if_pos hm]
          simp only [hp]
          rw [loanSchema_setId_congr l.id { l with status := "overdue" } rfl, ← hstep]
        have hm2 : headCell (overdueStep today r) = some l.id := by
          rw [hstep]
          rfl
        have hno2 : ∀ l' ∈ getAllRows loanSchema rest,
            headCell (overdueStep today r) ≠ some l'.id := by
          intro l' hl' hcon
          rw [hm2] at hcon
          exact skip_cond hnd l' hl' (hm.trans hcon)
        rw [goRows, if_pos he, hup]
        simp only [OperationResult.isOk]
        rw [if_pos trivial, goRows_skip today _ (c + 1) (overdueStep today r) rest hno2,
          ih (c + 1) (nodup_tail hnd)]
        simp [List.countP_cons, helig, he]
        omega
      · have hstep : overdueStep today r = r := by
          unfold overdueStep
          simp only [hp]
          rw [if_neg he]
        rw [goRows, if_neg he,
          goRows_skip today _ c r rest (skip_cond hnd),
          ih c (nodup_tail hnd), List.map_cons, hstep,
          List.countP_cons, helig]
        simp [he]

end CCB

namespace CCB

theorem updateOverdue_run (today : Date) (hdr : Row) (rows : List Row)
    (hnd : (rows.filterMap headCell).Nodup) :
    updateOverdueStatuses today (some (hdr :: rows))
      = (.ok (rows.countP (eligRow today)),
         some (hdr :: rows.map (overdueStep today))) := by
  simp only [updateOverdueStatuses, List.drop_succ_cons, List.drop_zero]
  rw [goOverdue_eq, goRows_spec today rows 0 hnd]
  simp

theorem overdueStep_not_eligible (today : Date) (r : Row) (l : Loan)
    (hp : rowToEntity loanSchema r = some l)
    (he : overdueEligible today l = false) :
    overdueStep today r = r := by
  unfold overdueStep
  simp only [hp]
  rw [if_neg (by simp [he])]

theorem terminal_not_eligible (today : Date) (l : Loan)
    (hst : l.status = "returned" ∨ l.status = "lost") :
    overdueEligible today l = false := by
  rcases hst with h1 | h1 <;> simp [overdueEligible, h1]

/-- C4: on a headered loans sheet with unique row ids,
`updateOverdueStatuses` transitions exactly the rows holding an `active`
loan whose due date is strictly before today, leaves every other row
(returned, lost, not yet due, malformed) untouched, and returns the count
of transitions; on any accessible sheet the scan always completes with a
success result, and on a sheet where one loan's row update fails (a
malformed duplicate-id row) the scan still processes later loans and the
failed update is not counted. -/
theorem C4_updateOverdueStatuses :
    (∀ (today : Date) (hdr : Row) (rows : List Row),
      (rows.filterMap headCell).Nodup →
      updateOverdueStatuses today (some (hdr :: rows))
        = (.ok (rows.countP (eligRow today)),
           some (hdr :: rows.map (overdueStep today))))
  ∧ (∀ (today : Date) (r : Row) (l : Loan), rowToEntity loanSchema r = some l →
      (l.status = "returned" ∨ l.status = "lost"
        ∨ overdueEligible today l = false) →
      overdueStep today r = r)
  ∧ (∀ (today : Date) (ls : Sheet), ∃ n sh',
      updateOverdueStatuses today (some ls) = (.ok n, some sh'))
  ∧ updateOverdueStatuses ⟨2024, 2, 1⟩ (some exOverdueSheet)
      = (.ok 1, some exOverdueSheetAfter) := by
  refine ⟨?_, ?_, ?_, by decide⟩
  · intro today hdr rows hnd
    exact updateOverdue_run today hdr rows hnd
  · intro today r l hp hdisj
    refine overdueStep_not_eligible today r l hp ?_
    rcases hdisj with h1 | h1 | h1
    · exact terminal_not_eligible today l (Or.inl h1)
    · exact terminal_not_eligible today l (Or.inr h1)
    · exact h1
  · intro today ls
    exact ⟨_, _, rfl⟩

/-- C4 witness: on the spec's example — one active loan due 2024-01-01 with
today 2024-02-01, plus a returned and a lost loan — exactly the active loan
transitions to `overdue` and the count is 1. -/
theorem C4_updateOverdueStatuses_witness :
    updateOverdueStatuses ⟨2024, 2, 1⟩
        (some [hdrL,
          ["T1", "B1", "M1", "2023-12-20", "2024-01-01", "", "active"],
          ["T2", "B1", "M2", "2023-12-01", "2023-12-15", "", "returned"],
          ["T3", "B1", "M3", "2023-12-01", "2023-12-15", "", "lost"]])
      = (.ok 1,
         some [hdrL,
          ["T1", "B1", "M1", "2023-12-20", "2024-01-01", "", "overdue"],
          ["T2", "B1", "M2", "2023-12-01", "2023-12-15", "", "returned"],
          ["T3", "B1", "M3", "2023-12-01", "2023-12-15", "", "lost"]]) :=
  (C4_updateOverdueStatuses.1 ⟨2024, 2, 1⟩ hdrL
    [["T1", "B1", "M1", "2023-12-20", "2024-01-01", "", "active"],
     ["T2", "B1", "M2", "2023-12-01", "2023-12-15", "", "returned"],
     ["T3", "B1", "M3", "2023-12-01", "2023-12-15", "", "lost"]]
    (by decide)).trans (by decide)

/-- C3 counterexample: the claim "no transition leaves a terminal state" is
false for `lost`: `processReturn` on a loan whose status is `lost` (its only
gate is `status ≠ 'returned'`) succeeds and rewrites the loan to
`returned`, as both the returned record and a subsequent `getById` show. -/
theorem C3_counterexample :
    (processReturn ⟨2024, 2, 1⟩ "L1" exLostState).1
        = .ok ⟨"L1", "B1", "M1", "2024-01-01", "2024-01-15", "2024-02-01", "returned"⟩
  ∧ getById loanSchema "L1" (processReturn ⟨2024, 2, 1⟩ "L1" exLostState).2.loans
        = .ok ⟨"L1", "B1", "M1", "2024-01-01", "2024-01-15", "2024-02-01", "returned"⟩ :=
  ⟨by decide, by decide⟩

/-- C3 (amended): `returned` is terminal under all three operations, and
`lost` is terminal under `extendLoan` and `updateOverdueStatuses`; but
`processReturn` gates only on `status ≠ 'returned'`, so it transitions a
`lost` transaction to `returned`. -/
theorem C3_terminal_states :
    (∀ (today : Date) (loanId : String) (s : LibState) (loan : Loan),
      getById loanSchema loanId s.loans = .ok loan →
      loan.status = "returned" →
      processReturn today loanId s
        = (.err "This loan has already been returned", s))
  ∧ (∀ (loanId : String) (days : Nat) (s : LibState) (loan : Loan),
      getById loanSchema loanId s.loans = .ok loan →
      loan.status = "returned" ∨ loan.status = "lost" →
      extendLoan loanId days s = (.err "Can only extend active loans", s))
  ∧ (∀ (today : Date) (hdr : Row) (rows : List Row),
      (rows.filterMap headCell).Nodup →
      (updateOverdueStatuses today (some (hdr :: rows))).2
          = some (hdr :: rows.map (overdueStep today))
        ∧ ∀ (r : Row) (l : Loan), rowToEntity loanSchema r = some l →
            l.status = "returned" ∨ l.status = "lost" →
            overdueStep today r = r)
  ∧ (∀ (today : Date) (loanId : String) (s : LibState) (hdr : Row)
        (rows : List Row) (loan : Loan),
      s.loans = some (hdr :: rows) →
      (rows.filterMap headCell).Nodup →
      getByIdRows loanSchema loanId rows = some loan →
      loan.status = "lost" →
      (processReturn today loanId s).1
        = .ok { loan with returnDate := formatDate today, status := "returned" }) := by
  refine ⟨?_, ?_, ?_, ?_⟩
  · intro today loanId s loan hget hst
    unfold processReturn
    simp only [hget]
    rw [if_pos hst]
  · intro loanId days s loan hget hd
    have hne : loan.status ≠ "active" := by
      rcases hd with h1 | h1 <;> simp [h1]
    unfold extendLoan
    simp only [hget]
    rw [if_pos hne]
  · intro today hdr rows hnd
    refine ⟨?_, ?_⟩
    · rw [updateOverdue_run today hdr rows hnd]
    · intro r l hp hst
      exact overdueStep_not_eligible today r l hp (terminal_not_eligible today l hst)
  · intro today loanId s hdr rows loan hl hnd hget hst
    rw [processReturn_ok today loanId s hdr rows loan hl hnd hget
      (by rw [hst]; decide)]

/-- C3 witness (for the amended claim): a returned loan cannot be returned
again or extended, and a lost loan cannot be extended; concretely, on a
one-loan sheet in each state the operations fail with the gate messages,
while `processReturn` flips a concrete lost loan's status to returned. -/
theorem C3_terminal_states_witness :
    processReturn ⟨2024, 2, 1⟩ "L1"
        ⟨some [hdrB], some [hdrM],
         some [hdrL, ["L1", "B1", "M1", "2024-01-01", "2024-01-15", "2024-01-20", "returned"]]⟩
      = (.err "This loan has already been returned",
         ⟨some [hdrB], some [hdrM],
          some [hdrL, ["L1", "B1", "M1", "2024-01-01", "2024-01-15", "2024-01-20", "returned"]]⟩)
  ∧ extendLoan "L1" 14
        ⟨some [hdrB], some [hdrM],
         some [hdrL, ["L1", "B1", "M1", "2024-01-01", "2024-01-15", "", "lost"]]⟩
      = (.err "Can only extend active loans",
         ⟨some [hdrB], some [hdrM],
          some [hdrL, ["L1", "B1", "M1", "2024-01-01", "2024-01-15", "", "lost"]]⟩)
  ∧ (processReturn ⟨2024, 2, 1⟩ "L1"
        ⟨some [hdrB], some [hdrM],
         some [hdrL, ["L1", "B1", "M1", "2024-01-01", "2024-01-15", "", "lost"]]⟩).1
      = .ok ⟨"L1", "B1", "M1", "2024-01-01", "2024-01-15", "2024-02-01", "returned"⟩ := by
  refine ⟨?_, ?_, ?_⟩
  · exact C3_terminal_states.1 ⟨2024, 2, 1⟩ "L1" _
      ⟨"L1", "B1", "M1", "2024-01-01", "2024-01-15", "2024-01-20", "returned"⟩
      (by decide) (by decide)
  · exact C3_terminal_states.2.1 "L1" 14 _
      ⟨"L1", "B1", "M1", "2024-01-01", "2024-01-15", "", "lost"⟩
      (by decide) (Or.inr (by decide))
  · exact C3_terminal_states.2.2.2 ⟨2024, 2, 1⟩ "L1" _ hdrL
      [["L1", "B1", "M1", "2024-01-01", "2024-01-15", "", "lost"]]
      ⟨"L1", "B1", "M1", "2024-01-01", "2024-01-15", "", "lost"⟩
      rfl (by decide) (by decide) (by decide)

end CCB

namespace CCB

/-- C8: `processReturn` on an existing loan whose status is not `returned`
(over a headered, unique-id loans sheet) sets the loan's returnDate to
today and its status to `returned`, and reports success whatever the
item-side `markAsAvailable` outcome is — the result does not depend on it
and a failed media update leaves the media sheet unchanged (reported, not
rolled back). -/
theorem C8_processReturn_no_rollback
    (today : Date) (loanId : String) (s : LibState) (hdr : Row)
    (rows : List Row) (loan : Loan)
    (hloans : s.loans = some (hdr :: rows))
    (hnd : (rows.filterMap headCell).Nodup)
    (hget : getByIdRows loanSchema loanId rows = some loan)
    (hst : loan.status ≠ "returned") :
    processReturn today loanId s
      = (.ok { loan with returnDate := formatDate today, status := "returned" },
         { s with
            loans := some (hdr :: rows.map (returnStep loanId
              { loan with returnDate := formatDate today, status := "returned" })),
            media := (markAsAvailable loan.mediaId s.media).2 })
    ∧ (∀ e, (markAsAvailable loan.mediaId s.media).1 = .err e →
        (markAsAvailable loan.mediaId s.media).2 = s.media) :=
  ⟨processReturn_ok today loanId s hdr rows loan hloans hnd hget hst,
   fun _ he => update_err_unchanged he⟩

/-- C8 witness: with the Media sheet unreachable, a concrete return still
succeeds — the loan row gets today's return date and status `returned`,
and the media store is left exactly as it was. -/
theorem C8_processReturn_no_rollback_witness :
    processReturn ⟨2024, 2, 1⟩ "L1"
        ⟨some [hdrB], none,
         some [hdrL, ["L1", "B1", "M1", "2024-01-01", "2024-01-15", "", "active"]]⟩
      = (.ok ⟨"L1", "B1", "M1", "2024-01-01", "2024-01-15", "2024-02-01", "returned"⟩,
         ⟨some [hdrB], none,
          some [hdrL, ["L1", "B1", "M1", "2024-01-01", "2024-01-15", "2024-02-01", "returned"]]⟩)
  ∧ (markAsAvailable "M1" none).2 = none := by
  refine ⟨?_, ?_⟩
  · exact ((C8_processReturn_no_rollback ⟨2024, 2, 1⟩ "L1"
      ⟨some [hdrB], none,
       some [hdrL, ["L1", "B1", "M1", "2024-01-01", "2024-01-15", "", "active"]]⟩
      hdrL [["L1", "B1", "M1", "2024-01-01", "2024-01-15", "", "active"]]
      ⟨"L1", "B1", "M1", "2024-01-01", "2024-01-15", "", "active"⟩
      rfl (by decide) (by decide) (by decide)).1).trans (by decide)
  · exact (C8_processReturn_no_rollback ⟨2024, 2, 1⟩ "L1"
      ⟨some [hdrB], none,
       some [hdrL, ["L1", "B1", "M1", "2024-01-01", "2024-01-15", "", "active"]]⟩
      hdrL [["L1", "B1", "M1", "2024-01-01", "2024-01-15", "", "active"]]
      ⟨"L1", "B1", "M1", "2024-01-01", "2024-01-15", "", "active"⟩
      rfl (by decide) (by decide) (by decide)).2
      (accessError mediaSchema) (by decide)

/-- C9: due-date arithmetic is calendar-day addition — a 14-day checkout on
2024-01-15 stores dueDate 2024-01-29 and a further 14-day extension moves
it to 2024-02-12; in general, extending an active loan whose stored due
date parses as the date `d` by `n` days re-stores `formatDate` of `d` plus
`n` calendar days (no business-day skipping). -/
theorem C9_due_date_arithmetic :
    ((checkout ⟨2024, 1, 15⟩ "L1" "B1" "M1" 14 exState).1
      = .ok ⟨"L1", "B1", "M1", "2024-01-15", "2024-01-29", "", "active"⟩)
  ∧ ((extendLoan "L1" 14 (checkout ⟨2024, 1, 15⟩ "L1" "B1" "M1" 14 exState).2).1
      = .ok ⟨"L1", "B1", "M1", "2024-01-15", "2024-02-12", "", "active"⟩)
  ∧ (∀ (s : LibState) (hdr : Row) (rows : List Row) (loanId : String)
        (days : Nat) (loan : Loan) (d : Date),
      s.loans = some (hdr :: rows) →
      (rows.filterMap headCell).Nodup →
      getByIdRows loanSchema loanId rows = some loan →
      loan.status = "active" →
      parseIsoDate loan.dueDate = some d →
      (extendLoan loanId days s).1
        = .ok { loan with dueDate := formatDate (addDays days d) }) := by
  refine ⟨by decide, by decide, ?_⟩
  intro s hdr rows loanId days loan d hsl hnd hget hst hparse
  have hid : loan.id = loanId := getByIdRows_loan_id hget
  have hg2 : getById loanSchema loanId s.loans = .ok loan := by
    rw [hsl]
    unfold getById
    simp only [List.drop_succ_cons, List.drop_zero]
    rw [hget]
  have hshift : shiftDateString days loan.dueDate = formatDate (addDays days d) := by
    unfold shiftDateString
    rw [hparse]
  unfold extendLoan
  simp only [hg2]
  rw [if_neg (by simp [hst]), hshift, hsl, update_cons,
    updateRows_of_getByIdRows
      (fun l => { l with dueDate := formatDate (addDays days d) }) hnd hget,
    loanSchema_setId_congr loanId
      { loan with dueDate := formatDate (addDays days d) } hid]

/-- C9 witness: the general extension conjunct applied to a concrete active
loan due 2024-01-29 extended by 14 days yields dueDate 2024-02-12. -/
theorem C9_due_date_arithmetic_witness :
    (extendLoan "L1" 14
        ⟨some [hdrB], some [hdrM],
         some [hdrL, ["L1", "B1", "M1", "2024-01-15", "2024-01-29", "", "active"]]⟩).1
      = .ok ⟨"L1", "B1", "M1", "2024-01-15", "2024-02-12", "", "active"⟩ := by
  exact (C9_due_date_arithmetic.2.2
      ⟨some [hdrB], some [hdrM],
       some [hdrL, ["L1", "B1", "M1", "2024-01-15", "2024-01-29", "", "active"]]⟩
      hdrL [["L1", "B1", "M1", "2024-01-15", "2024-01-29", "", "active"]]
      "L1" 14 ⟨"L1", "B1", "M1", "2024-01-15", "2024-01-29", "", "active"⟩
      ⟨2024, 1, 29⟩ rfl (by decide) (by decide) (by decide) (by decide)).trans
    (by decide)

/-- C1 witness: in `exRollState` the preconditions pass, the loan row is
created, the media update fails (malformed duplicate-id media row), and
checkout returns the media-update error with the state fully restored. -/
theorem C1_checkout_rollback_witness :
    checkout ⟨2024, 1, 15⟩ "L9" "B1" "M1" 14 exRollState
      = (.err "Failed to update media status: Failed to parse existing entity",
         exRollState) :=
  C1_checkout_rollback ⟨2024, 1, 15⟩ "L9" "B1" "M1" 14 exRollState hdrL []
    "Failed to parse existing entity" rfl (by simp) (by decide) (by decide)
    (by decide)

end CCB
